import Mathlib

/-!
Verification of the DecisionTrace hash-chain audit log.

This development shallowly embeds the core of the DecisionTrace repository
(`src/decisiontrace/hasher.py`, `logger.py`, `replay.py`, `cli.py`) in Lean 4
and proves or refutes the specification claims about it.

Modelling conventions:
* JSON values are modelled by the inductive type `Json`.  Python `dict`s
  appear as association lists with unique keys (as produced by `json.loads`).
  JSON numbers are modelled as integers; no claim depends on float semantics.
* The log file is `LogFile := Option (List (Option Json))`: `none` means the
  file does not exist; a line of the file is `some j` when the line parses
  as JSON value `j` under `json.loads`, and `none` when parsing raises
  `JSONDecodeError`.  This abstracts the wire format: every consumer of a
  line first applies `json.loads`, and the producer writes `json` dumps of
  record objects, which round-trip.
* `hashlib.sha256` is implemented for real (`sha256hex`), operating on the
  UTF-8 bytes of the hashed string, so digests are genuine SHA-256 values.
* `json.dumps(..., sort_keys=True)` is implemented by `dumpsSorted`,
  matching Python's default separators and `ensure_ascii` escaping.
* Python exceptions escaping a function are modelled with `Except String`.
-/

set_option maxRecDepth 20000

namespace DecisionTrace

/-- JSON values as produced by `json.loads`.  Objects are association lists
(Python dicts preserve insertion order; keys are unique). -/
inductive Json where
  | null : Json
  | bool (b : Bool) : Json
  | num (n : Int) : Json
  | str (s : String) : Json
  | arr (elems : List Json) : Json
  | obj (kvs : List (String × Json)) : Json

mutual

/-- Decidable equality on `Json` (hand-written: the nested inductive does not
support automatic derivation). -/
def Json.decEq : (a b : Json) → Decidable (a = b)
  | .null, .null => .isTrue rfl
  | .null, .bool _ => .isFalse (fun h => Json.noConfusion h)
  | .null, .num _ => .isFalse (fun h => Json.noConfusion h)
  | .null, .str _ => .isFalse (fun h => Json.noConfusion h)
  | .null, .arr _ => .isFalse (fun h => Json.noConfusion h)
  | .null, .obj _ => .isFalse (fun h => Json.noConfusion h)
  | .bool _, .null => .isFalse (fun h => Json.noConfusion h)
  | .bool a, .bool b =>
    if h : a = b then .isTrue (by rw [h]) else .isFalse (by simp [h])
  | .bool _, .num _ => .isFalse (fun h => Json.noConfusion h)
  | .bool _, .str _ => .isFalse (fun h => Json.noConfusion h)
  | .bool _, .arr _ => .isFalse (fun h => Json.noConfusion h)
  | .bool _, .obj _ => .isFalse (fun h => Json.noConfusion h)
  | .num _, .null => .isFalse (fun h => Json.noConfusion h)
  | .num _, .bool _ => .isFalse (fun h => Json.noConfusion h)
  | .num a, .num b =>
    if h : a = b then .isTrue (by rw [h]) else .isFalse (by simp [h])
  | .num _, .str _ => .isFalse (fun h => Json.noConfusion h)
  | .num _, .arr _ => .isFalse (fun h => Json.noConfusion h)
  | .num _, .obj _ => .isFalse (fun h => Json.noConfusion h)
  | .str _, .null => .isFalse (fun h => Json.noConfusion h)
  | .str _, .bool _ => .isFalse (fun h => Json.noConfusion h)
  | .str _, .num _ => .isFalse (fun h => Json.noConfusion h)
  | .str a, .str b =>
    if h : a = b then .isTrue (by rw [h]) else .isFalse (by simp [h])
  | .str _, .arr _ => .isFalse (fun h => Json.noConfusion h)
  | .str _, .obj _ => .isFalse (fun h => Json.noConfusion h)
  | .arr _, .null => .isFalse (fun h => Json.noConfusion h)
  | .arr _, .bool _ => .isFalse (fun h => Json.noConfusion h)
  | .arr _, .num _ => .isFalse (fun h => Json.noConfusion h)
  | .arr _, .str _ => .isFalse (fun h => Json.noConfusion h)
  | .arr a, .arr b =>
    match Json.decEqList a b with
    | .isTrue h => .isTrue (by rw [h])
    | .isFalse h => .isFalse (by simp [h])
  | .arr _, .obj _ => .isFalse (fun h => Json.noConfusion h)
  | .obj _, .null => .isFalse (fun h => Json.noConfusion h)
  | .obj _, .bool _ => .isFalse (fun h => Json.noConfusion h)
  | .obj _, .num _ => .isFalse (fun h => Json.noConfusion h)
  | .obj _, .str _ => .isFalse (fun h => Json.noConfusion h)
  | .obj _, .arr _ => .isFalse (fun h => Json.noConfusion h)
  | .obj a, .obj b =>
    match Json.decEqKvs a b with
    | .isTrue h => .isTrue (by rw [h])
    | .isFalse h => .isFalse (by simp [h])

def Json.decEqList : (a b : List Json) → Decidable (a = b)
  | [], [] => .isTrue rfl
  | [], _ :: _ => .isFalse (fun h => List.noConfusion h)
  | _ :: _, [] => .isFalse (fun h => List.noConfusion h)
  | x :: xs, y :: ys =>
    match Json.decEq x y with
    | .isTrue h1 =>
      match Json.decEqList xs ys with
      | .isTrue h2 => .isTrue (by rw [h1, h2])
      | .isFalse h2 => .isFalse (by simp [h1, h2])
    | .isFalse h1 => .isFalse (by simp [h1])

def Json.decEqKvs : (a b : List (String × Json)) → Decidable (a = b)
  | [], [] => .isTrue rfl
  | [], _ :: _ => .isFalse (fun h => List.noConfusion h)
  | _ :: _, [] => .isFalse (fun h => List.noConfusion h)
  | (k1, v1) :: xs, (k2, v2) :: ys =>
    if hk : k1 = k2 then
      match Json.decEq v1 v2 with
      | .isTrue h1 =>
        match Json.decEqKvs xs ys with
        | .isTrue h2 => .isTrue (by rw [hk, h1, h2])
        | .isFalse h2 => .isFalse (by simp [h2])
      | .isFalse h1 => .isFalse (by simp [h1])
    else .isFalse (by simp [hk])

end

instance : DecidableEq Json := Json.decEq

instance {ε α : Type} [DecidableEq ε] [DecidableEq α] : DecidableEq (Except ε α)
  | .ok a, .ok b =>
    if h : a = b then .isTrue (by rw [h]) else .isFalse (by simp [h])
  | .ok _, .error _ => .isFalse (fun h => Except.noConfusion h)
  | .error _, .ok _ => .isFalse (fun h => Except.noConfusion h)
  | .error a, .error b =>
    if h : a = b then .isTrue (by rw [h]) else .isFalse (by simp [h])

/-- First-match lookup in a JSON object, i.e. Python `dict` access on the
(unique-keyed) dict that the association list models. -/
def jlookup (k : String) : List (String × Json) → Option Json
  | [] => none
  | (k', v) :: rest => if k' = k then some v else jlookup k rest

/-! ## SHA-256 (`hashlib.sha256(...).hexdigest()`)

A direct implementation over byte lists (`Nat` values < 256), with 32-bit
words as `Nat` reduced `% 2^32`.  All recursion is structural so the kernel
can evaluate digests of concrete inputs. -/

namespace SHA256

def M32 : Nat := 4294967296

def rotr (n x : Nat) : Nat := ((x <<< (32 - n)) ||| (x >>> n)) % M32

def bs0 (x : Nat) : Nat := rotr 2 x ^^^ rotr 13 x ^^^ rotr 22 x
def bs1 (x : Nat) : Nat := rotr 6 x ^^^ rotr 11 x ^^^ rotr 25 x
def ss0 (x : Nat) : Nat := rotr 7 x ^^^ rotr 18 x ^^^ (x >>> 3)
def ss1 (x : Nat) : Nat := rotr 17 x ^^^ rotr 19 x ^^^ (x >>> 10)
def ch (x y z : Nat) : Nat := (x &&& y) ^^^ ((x ^^^ 0xffffffff) &&& z)
def maj (u v w : Nat) : Nat := (u &&& v) ^^^ (u &&& w) ^^^ (v &&& w)

/-- The 64 round constants of FIPS 180-4 (decimal). -/
def K : List Nat :=
  [1116352408, 1899447441, 3049323471, 3921009573, 961987163, 1508970993,
   2453635748, 2870763221, 3624381080, 310598401, 607225278, 1426881987,
   1925078388, 2162078206, 2614888103, 3248222580, 3835390401, 4022224774,
   264347078, 604807628, 770255983, 1249150122, 1555081692, 1996064986,
   2554220882, 2821834349, 2952996808, 3210313671, 3336571891, 3584528711,
   113926993, 338241895, 666307205, 773529912, 1294757372, 1396182291,
   1695183700, 1986661051, 2177026350, 2456956037, 2730485921, 2820302411,
   3259730800, 3345764771, 3516065817, 3600352804, 4094571909, 275423344,
   430227734, 506948616, 659060556, 883997877, 958139571, 1322822218,
   1537002063, 1747873779, 1955562222, 2024104815, 2227730452, 2361852424,
   2428436474, 2756734187, 3204031479, 3329325298]

/-- The eight initial state words of FIPS 180-4 (decimal). -/
def H0 : List Nat :=
  [1779033703, 3144134277, 1013904242, 2773480762,
   1359893119, 2600822924, 528734635, 1541459225]

/-- Big-endian byte decomposition of `n` into `k` bytes. -/
def toBytesBE (k : Nat) (n : Nat) : List Nat :=
  match k with
  | 0 => []
  | k' + 1 => toBytesBE k' (n >>> 8) ++ [n % 256]

/-- SHA-256 padding: append `0x80`, zeros, and the 64-bit big-endian bit
length so the total length is a multiple of 64 bytes. -/
def padMessage (msg : List Nat) : List Nat :=
  let len := msg.length
  let padLen := (119 - len % 64) % 64
  msg ++ [0x80] ++ List.replicate padLen 0 ++ toBytesBE 8 (len * 8)

/-- Combine bytes into big-endian 32-bit words. -/
def toWords : List Nat → List Nat
  | b0 :: b1 :: b2 :: b3 :: rest =>
    (((b0 * 256 + b1) * 256 + b2) * 256 + b3) :: toWords rest
  | _ => []

/-- Split the word list into 16-word blocks (fuel keeps recursion
structural). -/
def toBlocks (fuel : Nat) (ws : List Nat) : List (List Nat) :=
  match fuel, ws with
  | 0, _ => []
  | _, [] => []
  | f + 1, ws => ws.take 16 :: toBlocks f (ws.drop 16)

/-- Message-schedule extension; `rw` is the schedule so far, most recent word
first.  Runs `fuel` steps (48 for SHA-256). -/
def extendSchedule (fuel : Nat) (rw : List Nat) : List Nat :=
  match fuel with
  | 0 => rw
  | f + 1 =>
    let nw := (ss1 (rw.getD 1 0) + rw.getD 6 0 + ss0 (rw.getD 14 0) +
               rw.getD 15 0) % M32
    extendSchedule f (nw :: rw)

/-- The 64-entry message schedule of one block, in order. -/
def schedule (block : List Nat) : List Nat :=
  (extendSchedule 48 block.reverse).reverse

structure St where
  a : Nat
  b : Nat
  c : Nat
  d : Nat
  e : Nat
  f : Nat
  g : Nat
  h : Nat

def roundStep (s : St) (kw : Nat × Nat) : St :=
  let t1 := (s.h + bs1 s.e + ch s.e s.f s.g + kw.1 + kw.2) % M32
  let t2 := (bs0 s.a + maj s.a s.b s.c) % M32
  { a := (t1 + t2) % M32, b := s.a, c := s.b, d := s.c,
    e := (s.d + t1) % M32, f := s.e, g := s.f, h := s.g }

def compress (hs : List Nat) (block : List Nat) : List Nat :=
  let s0 : St :=
    { a := hs.getD 0 0, b := hs.getD 1 0, c := hs.getD 2 0, d := hs.getD 3 0,
      e := hs.getD 4 0, f := hs.getD 5 0, g := hs.getD 6 0, h := hs.getD 7 0 }
  let s := (K.zip (schedule block)).foldl roundStep s0
  List.zipWith (fun x y => (x + y) % M32) hs [s.a, s.b, s.c, s.d, s.e, s.f, s.g, s.h]

/-- SHA-256 of a byte list, as the list of eight 32-bit state words. -/
def sha256Words (msg : List Nat) : List Nat :=
  let ws := toWords (padMessage msg)
  (toBlocks ws.length ws).foldl compress H0

def hexChar (n : Nat) : Char := "0123456789abcdef".data.getD n '0'

def hex8 (n : Nat) : List Char :=
  (toBytesBE 4 n).foldr (fun b acc => hexChar (b / 16) :: hexChar (b % 16) :: acc) []

/-- UTF-8 encoding of one character. -/
def utf8Char (c : Char) : List Nat :=
  let n := c.toNat
  if n < 0x80 then [n]
  else if n < 0x800 then
    [0xc0 ||| (n >>> 6), 0x80 ||| (n &&& 0x3f)]
  else if n < 0x10000 then
    [0xe0 ||| (n >>> 12), 0x80 ||| ((n >>> 6) &&& 0x3f), 0x80 ||| (n &&& 0x3f)]
  else
    [0xf0 ||| (n >>> 18), 0x80 ||| ((n >>> 12) &&& 0x3f),
     0x80 ||| ((n >>> 6) &&& 0x3f), 0x80 ||| (n &&& 0x3f)]

def utf8Bytes (s : String) : List Nat :=
  s.data.foldr (fun c acc => utf8Char c ++ acc) []

end SHA256

/-- Model of `hashlib.sha256(s.encode()).hexdigest()`: the lowercase hex
SHA-256 digest of the UTF-8 bytes of `s`. -/
def sha256hex (s : String) : String :=
  ⟨(SHA256.sha256Words (SHA256.utf8Bytes s)).foldr
     (fun w acc => SHA256.hex8 w ++ acc) []⟩

/-! ## `json.dumps(..., sort_keys=True)`

Python's default rendering: separators `", "` and `": "`, `ensure_ascii=True`
escaping, keys sorted lexicographically by code point at every level. -/

def hex4 (n : Nat) : List Char :=
  [SHA256.hexChar ((n >>> 12) &&& 15), SHA256.hexChar ((n >>> 8) &&& 15),
   SHA256.hexChar ((n >>> 4) &&& 15), SHA256.hexChar (n &&& 15)]

/-- Escape one character the way Python's `json.dumps` does with the default
`ensure_ascii=True`: short escapes for the usual control characters, `\uXXXX`
(with surrogate pairs above the BMP) for everything outside `0x20`–`0x7e`. -/
def escChar (c : Char) : List Char :=
  if c = '"' then ['\\', '"']
  else if c = '\\' then ['\\', '\\']
  else if c = '\n' then ['\\', 'n']
  else if c = '\t' then ['\\', 't']
  else if c = '\r' then ['\\', 'r']
  else if c.toNat = 8 then ['\\', 'b']
  else if c.toNat = 12 then ['\\', 'f']
  else if 0x20 ≤ c.toNat ∧ c.toNat ≤ 0x7e then [c]
  else if c.toNat < 0x10000 then '\\' :: 'u' :: hex4 c.toNat
  else
    let n := c.toNat - 0x10000
    ('\\' :: 'u' :: hex4 (0xd800 + (n >>> 10))) ++
    ('\\' :: 'u' :: hex4 (0xdc00 + (n &&& 0x3ff)))

/-- A JSON string literal: quotes around the escaped characters. -/
def escString (s : String) : List Char :=
  '"' :: s.data.foldr (fun c acc => escChar c ++ acc) ['"']

/-- Code-point-wise strict lexicographic order on strings, i.e. Python's
`<` on `str`, which is what `sort_keys=True` sorts by. -/
def strLtB (a b : String) : Bool :=
  go a.data b.data
where
  go : List Char → List Char → Bool
    | [], [] => false
    | [], _ :: _ => true
    | _ :: _, [] => false
    | x :: xs, y :: ys =>
      if x.toNat < y.toNat then true
      else if y.toNat < x.toNat then false
      else go xs ys

def insertKv (p : String × Json) : List (String × Json) → List (String × Json)
  | [] => [p]
  | q :: rest => if strLtB p.1 q.1 then p :: q :: rest else q :: insertKv p rest

/-- Stable insertion sort of object entries by key (Python's `sorted` on
dict items when keys are unique). -/
def sortKvs : List (String × Json) → List (String × Json)
  | [] => []
  | p :: rest => insertKv p (sortKvs rest)

mutual

/-- Sort the keys of every object inside a JSON value (the recursive effect
of `sort_keys=True`). -/
def sortJson : Json → Json
  | .null => .null
  | .bool b => .bool b
  | .num n => .num n
  | .str s => .str s
  | .arr xs => .arr (sortJsonList xs)
  | .obj kvs => .obj (sortKvs (sortJsonKvs kvs))

def sortJsonList : List Json → List Json
  | [] => []
  | x :: xs => sortJson x :: sortJsonList xs

def sortJsonKvs : List (String × Json) → List (String × Json)
  | [] => []
  | (k, v) :: tl => (k, sortJson v) :: sortJsonKvs tl

end

mutual

/-- Render a JSON value exactly as `json.dumps` does with default separators
(`", "` between items, `": "` after keys).  Key sorting is done beforehand
by `sortJson`. -/
def render : Json → List Char
  | .null => "null".data
  | .bool true => "true".data
  | .bool false => "false".data
  | .num n => (toString n).data
  | .str s => escString s
  | .arr xs => '[' :: renderArr xs
  | .obj kvs => '\x7b' :: renderObj kvs

def renderArr : List Json → List Char
  | [] => [']']
  | [x] => render x ++ [']']
  | x :: y :: rest => render x ++ ',' :: ' ' :: renderArr (y :: rest)

def renderObj : List (String × Json) → List Char
  | [] => ['\x7d']
  | [(k, v)] => escString k ++ ':' :: ' ' :: render v ++ ['\x7d']
  | (k, v) :: q :: rest =>
    escString k ++ ':' :: ' ' :: render v ++ ',' :: ' ' :: renderObj (q :: rest)

end

/-- `json.dumps(j, sort_keys=True)`. -/
def dumpsSorted (j : Json) : String := ⟨render (sortJson j)⟩

/-- The genesis digest used by `hasher.py` whenever there is no predecessor:
`hashlib.sha256("genesis_block".encode()).hexdigest()`. -/
def genesis_hash : String := sha256hex "genesis_block"

/-- `hasher.calculate_hash`: SHA-256 of the sorted-keys JSON dump of the
record's fields with the `hash` entry removed. -/
def calculate_hash (record_data : List (String × Json)) : String :=
  let hashable_data := record_data.filter (fun kv => kv.1 ≠ "hash")
  sha256hex (dumpsSorted (.obj hashable_data))

/-! ## The log file -/

/-- The persisted log.  `none`: the file does not exist.  `some lines`: the
file exists and consists of `lines`, each line given by the result of
`json.loads` on it (`none` when the line is not valid JSON). -/
abbrev LogFile := Option (List (Option Json))

/-- The lines of the log; a missing file reads as no lines. -/
def logLines (f : LogFile) : List (Option Json) := f.getD []

/-- `hasher.get_last_hash`: the `hash` entry of the JSON object on the last
line, the genesis digest when the file is missing/empty, when the last line
is not valid JSON, or when the object has no `hash` entry.  A last line that
is valid JSON but not an object raises (`.get` on a non-dict). -/
def get_last_hash (f : LogFile) : Except String Json :=
  match (logLines f).getLast? with
  | none => .ok (.str genesis_hash)
  | some none => .ok (.str genesis_hash)
  | some (some (.obj kvs)) => .ok ((jlookup "hash" kvs).getD (.str genesis_hash))
  | some (some _) => .error "AttributeError: no attribute get"

/-! ## The verifier (`hasher.verify_chain`) -/

/-- One per-line diagnostic printed by `verify_chain`: invalid JSON, a
`prev_hash` that does not match the expected predecessor digest, or a stored
`hash` that does not match the recalculated content digest. -/
inductive Finding where
  | decodeError (line : Nat)
  | chainLinkError (line : Nat) (recorded : Json) (expected : String)
  | tamperError (line : Nat) (recorded : Json) (recalculated : String)
deriving DecidableEq

/-- The body of `verify_chain`'s `for i, line in enumerate(f)` loop.
`prev` is `previous_hash`, `valid` is `is_valid`, `fs` the findings printed
so far, `n` the 1-based number of the next line.  A `KeyError`/`TypeError`
escaping the loop is an `.error`. -/
def verifyLoop : String → Bool → List Finding → Nat → List (Option Json) →
    Except String (Bool × List Finding)
  | _, valid, fs, _, [] => .ok (valid, fs)
  | prev, _, fs, n, none :: rest =>
    verifyLoop prev false (fs ++ [.decodeError n]) (n + 1) rest
  | prev, valid, fs, n, some j :: rest =>
    match j with
    | .obj kvs =>
      match jlookup "prev_hash" kvs with
      | none => .error "KeyError: prev_hash"
      | some pv =>
        let valid1 := if pv = Json.str prev then valid else false
        let fs1 := if pv = Json.str prev then fs
                   else fs ++ [.chainLinkError n pv prev]
        let recalculated := calculate_hash kvs
        match jlookup "hash" kvs with
        | none => .error "KeyError: hash"
        | some hv =>
          let valid2 := if hv = Json.str recalculated then valid1 else false
          let fs2 := if hv = Json.str recalculated then fs1
                     else fs1 ++ [.tamperError n hv recalculated]
          verifyLoop recalculated valid2 fs2 (n + 1) rest
    | _ => .error "TypeError: record is not a JSON object"

/-- `hasher.verify_chain`: `True`/`False` plus the per-line findings it
prints; a missing or empty file verifies trivially. -/
def verify_chain (f : LogFile) : Except String (Bool × List Finding) :=
  if (logLines f).isEmpty then .ok (true, [])
  else verifyLoop genesis_hash true [] 1 (logLines f)

/-! ## Reference predicates for the verifier's checks

These express, directly from the spec's words, what it means for every line
to pass the per-line checks; they are compared with `verify_chain`. -/

/-- One parsed record passes its per-line checks against expected
predecessor digest `prev`: `prev_hash` equals `prev` and the stored `hash`
equals the recalculated content digest. -/
def recOk (prev : String) (kvs : List (String × Json)) : Bool :=
  decide (jlookup "prev_hash" kvs = some (.str prev)) &&
  decide (jlookup "hash" kvs = some (.str (calculate_hash kvs)))

/-- Every line parses as a JSON object and passes its per-line checks, the
expected predecessor digest being threaded through recalculated content
digests. -/
def chainOk : String → List (Option Json) → Bool
  | _, [] => true
  | prev, some (.obj kvs) :: rest => recOk prev kvs && chainOk (calculate_hash kvs) rest
  | _, _ => false

/-- The expected predecessor digest after scanning the given lines (only
parsed objects update it, mirroring the verifier's policy). -/
def chainRun : String → List (Option Json) → String
  | prev, [] => prev
  | _, some (.obj kvs) :: rest => chainRun (calculate_hash kvs) rest
  | prev, _ :: rest => chainRun prev rest

/-- Replace the value stored under key `k` (mutation of one field of a
stored record). -/
def setField (k : String) (v : Json) (kvs : List (String × Json)) :
    List (String × Json) :=
  kvs.map (fun kv => if kv.1 = k then (kv.1, v) else kv)

/-! ## The record model

`schema.py` (the pydantic `DecisionRecord` model) is imported by the source
but is not among the source files, so its shape is modelled from the spec
(§3, §4.1, §6). -/

/-- Modelled from the spec: the `DecisionRecord` of the missing `schema.py`.
Field list and shapes from spec §3: generated string identity and timestamp,
free-text `model`/`prompt`/`output`, a JSON mapping `config`, string lists
`context_sources`/`risk_flags`, optional numeric `confidence`, and the two
hex digest fields.  (JSON numbers are modelled as integers throughout.) -/
structure DecisionRecord where
  decision_id : String
  timestamp : String
  model : String
  config : Json
  prompt : String
  context_sources : List String
  output : String
  confidence : Option Int
  risk_flags : List String
  prev_hash : String
  hash : String
deriving DecidableEq

/-- JSON value of the optional confidence (`None` serializes to `null`). -/
def confJson : Option Int → Json
  | none => .null
  | some n => .num n

def strArr (xs : List String) : Json := .arr (xs.map .str)

/-- The record's fields as JSON object entries, in the declaration order of
spec §6 — the object written by `final_record.json()` and read back by
`json.loads`. -/
def recordFields (r : DecisionRecord) : List (String × Json) :=
  [("decision_id", .str r.decision_id), ("timestamp", .str r.timestamp),
   ("model", .str r.model), ("config", r.config), ("prompt", .str r.prompt),
   ("context_sources", strArr r.context_sources), ("output", .str r.output),
   ("confidence", confJson r.confidence), ("risk_flags", strArr r.risk_flags),
   ("prev_hash", .str r.prev_hash), ("hash", .str r.hash)]

def recordToJson (r : DecisionRecord) : Json := .obj (recordFields r)

/-! ## The appender (`logger.log_decision`) -/

/-- The typed arguments of `logger.log_decision`, plus the `decision_id` and
`timestamp` that the pydantic model generates (generation is nondeterministic
— fresh UUID and current time — so the generated values are inputs of the
model and theorems quantify over them). -/
structure Candidate where
  model : String
  config : Json
  prompt : String
  context_sources : List String
  output : String
  confidence : Option Int
  risk_flags : Option (List String)
  decision_id : String
  timestamp : String
deriving DecidableEq

/-- Steps 2–4 of `log_decision`: `partial_data` (insertion order of
`logger.py`) extended with the generated `decision_id` and `timestamp` —
the `record_data_for_hashing` dict. -/
def record_data_for_hashing (c : Candidate) (prev_hash : String) :
    List (String × Json) :=
  [("model", .str c.model), ("config", c.config), ("prompt", .str c.prompt),
   ("context_sources", strArr c.context_sources), ("output", .str c.output),
   ("confidence", confJson c.confidence),
   ("risk_flags", strArr (c.risk_flags.getD [])),
   ("prev_hash", .str prev_hash)] ++
  [("decision_id", .str c.decision_id), ("timestamp", .str c.timestamp)]

/-- Steps 5–6 of `log_decision`: the final record, with
`hash = calculate_hash(record_data_for_hashing)`. -/
def mkRecord (c : Candidate) (prev_hash : String) : DecisionRecord :=
  { decision_id := c.decision_id, timestamp := c.timestamp, model := c.model,
    config := c.config, prompt := c.prompt,
    context_sources := c.context_sources, output := c.output,
    confidence := c.confidence, risk_flags := c.risk_flags.getD [],
    prev_hash := prev_hash,
    hash := calculate_hash (record_data_for_hashing c prev_hash) }

/-- `logger.log_decision`: read the tail hash, assemble the partial data,
stamp identity and time, compute the content hash, and append one line.
The `.error` branch for a non-string tail value models pydantic rejecting a
non-string `prev_hash` (spec §3: `prev_hash` is a hex digest string); the
`.error` propagated from `get_last_hash` is the uncaught `AttributeError`. -/
def log_decision (f : LogFile) (c : Candidate) :
    Except String (DecisionRecord × LogFile) :=
  match get_last_hash f with
  | .error e => .error e
  | .ok pv =>
    match pv with
    | .str prev_hash =>
      let final_record := mkRecord c prev_hash
      .ok (final_record, some (logLines f ++ [some (recordToJson final_record)]))
    | _ => .error "ValidationError: prev_hash is not a string"

/-- N sequential appends: fold `log_decision` over a list of candidates. -/
def buildStore (f : LogFile) : List Candidate → Except String LogFile
  | [] => .ok f
  | c :: cs =>
    match log_decision f c with
    | .error e => .error e
    | .ok (_, f') => buildStore f' cs

/-! ## The locator (`replay.replay_decision`) -/

/-- Modelled from the spec: validation of a parsed record by the missing
`schema.py` (`DecisionRecord.parse_obj`).  Spec §4.1/§3: every stated field
must have its stated shape, `confidence` may be absent or `null`,
`risk_flags` defaults to the empty sequence; a violation raises a
`ValidationError` naming the offending field. -/
def asStrList : List Json → Option (List String)
  | [] => some []
  | .str s :: rest => (asStrList rest).map (s :: ·)
  | _ => none

/-- Modelled from the spec: extract a required string field. -/
def getStrField (kvs : List (String × Json)) (k : String) : Except String String :=
  match jlookup k kvs with
  | some (.str s) => .ok s
  | some _ => .error ("ValidationError: " ++ k ++ " is not a string")
  | none => .error ("ValidationError: " ++ k ++ " field required")

/-- Modelled from the spec: extract a required list-of-strings field. -/
def getStrListField (kvs : List (String × Json)) (k : String) :
    Except String (List String) :=
  match jlookup k kvs with
  | some (.arr xs) =>
    match asStrList xs with
    | some ss => .ok ss
    | none => .error ("ValidationError: " ++ k ++ " is not a list of strings")
  | some _ => .error ("ValidationError: " ++ k ++ " is not a list")
  | none => .error ("ValidationError: " ++ k ++ " field required")

/-- Modelled from the spec: `DecisionRecord.parse_obj` of the missing
`schema.py` — structural validation of a parsed JSON value against the
record model. -/
def parse_obj (j : Json) : Except String DecisionRecord :=
  match j with
  | .obj kvs => do
    let did ← getStrField kvs "decision_id"
    let ts ← getStrField kvs "timestamp"
    let model ← getStrField kvs "model"
    let config ←
      match jlookup "config" kvs with
      | some (.obj ckvs) => Except.ok (Json.obj ckvs)
      | some _ => Except.error "ValidationError: config is not a mapping"
      | none => Except.error "ValidationError: config field required"
    let prompt ← getStrField kvs "prompt"
    let ctx ← getStrListField kvs "context_sources"
    let output ← getStrField kvs "output"
    let confidence ←
      match jlookup "confidence" kvs with
      | some (.num n) => Except.ok (some n)
      | some .null => Except.ok none
      | none => Except.ok none
      | some _ => Except.error "ValidationError: confidence is not a number"
    let risk_flags ←
      match jlookup "risk_flags" kvs with
      | some (.arr xs) =>
        match asStrList xs with
        | some ss => Except.ok ss
        | none => Except.error "ValidationError: risk_flags is not a list of strings"
      | some .null => Except.ok []
      | none => Except.ok []
      | some _ => Except.error "ValidationError: risk_flags is not a list"
    let prev_hash ← getStrField kvs "prev_hash"
    let hash ← getStrField kvs "hash"
    Except.ok { decision_id := did, timestamp := ts, model := model,
                config := config, prompt := prompt, context_sources := ctx,
                output := output, confidence := confidence,
                risk_flags := risk_flags, prev_hash := prev_hash, hash := hash }
  | _ => .error "ValidationError: record is not a mapping"

/-- Outcome of `replay.replay_decision`, distinguishing the three observable
behaviours: record found and displayed (returns `True`), identifier not
found (prints the not-found message, returns `False`), and missing log file
(prints the file error, returns `False`). -/
inductive ReplayResult where
  | found (r : DecisionRecord)
  | notFound
  | fileMissing
deriving DecidableEq

/-- The scan loop of `replay_decision`: lines raising `JSONDecodeError` are
skipped; a parsed line is checked by `record_data.get("decision_id") ==
decision_id`; on a match the record is validated by `parse_obj`, whose
`ValidationError` is not caught (only `JSONDecodeError` is); `.get` on a
parsed non-object raises `AttributeError`. -/
def replayScan : List (Option Json) → String → Except String ReplayResult
  | [], _ => .ok .notFound
  | none :: rest, did => replayScan rest did
  | some j :: rest, did =>
    match j with
    | .obj kvs =>
      if jlookup "decision_id" kvs = some (.str did) then
        match parse_obj (.obj kvs) with
        | .ok r => .ok (.found r)
        | .error e => .error e
      else replayScan rest did
    | _ => .error "AttributeError: no attribute get"

/-- `replay.replay_decision`: a missing log file is reported as an error
message (returning `False`); otherwise the lines are scanned in order. -/
def replay_decision (f : LogFile) (decision_id : String) :
    Except String ReplayResult :=
  match f with
  | none => .ok .fileMissing
  | some ls => replayScan ls decision_id

/-! ## The CLI `log` command (`cli.py`) -/

/-- `required_fields` of `cli.log`. -/
def required_fields : List String :=
  ["model", "config", "prompt", "context_sources", "output"]

/-- Failure of the CLI `log` command: `click.BadParameter` naming the
missing required fields, or `click.Abort` after an exception was printed. -/
inductive CliError where
  | badParameter (missing : List String)
  | aborted (msg : String)
deriving DecidableEq

/-- Modelled from the spec: conversion of the raw JSON field values that
`cli.log` passes to `logger.log_decision` into the typed candidate, i.e.
the validation pydantic performs when `DecisionRecord` is constructed
(`schema.py` is not among the source files).  Spec §4.1: the required fields
must have their stated shapes; `confidence` and `risk_flags` are optional
(`data.get` yields `None` when absent). -/
def candidateOfData (data : List (String × Json)) (did ts : String) :
    Except String Candidate := do
  let model ← getStrField data "model"
  let config ←
    match jlookup "config" data with
    | some (.obj ckvs) => Except.ok (Json.obj ckvs)
    | some _ => Except.error "ValidationError: config is not a mapping"
    | none => Except.error "ValidationError: config field required"
  let prompt ← getStrField data "prompt"
  let ctx ← getStrListField data "context_sources"
  let output ← getStrField data "output"
  let confidence ←
    match jlookup "confidence" data with
    | some (.num n) => Except.ok (some n)
    | some .null => Except.ok none
    | none => Except.ok none
    | some _ => Except.error "ValidationError: confidence is not a number"
  let risk_flags ←
    match jlookup "risk_flags" data with
    | some (.arr xs) =>
      match asStrList xs with
      | some ss => Except.ok (some ss)
      | none => Except.error "ValidationError: risk_flags is not a list of strings"
    | some .null => Except.ok none
    | none => Except.ok none
    | some _ => Except.error "ValidationError: risk_flags is not a list"
  Except.ok { model := model, config := config, prompt := prompt,
              context_sources := ctx, output := output,
              confidence := confidence, risk_flags := risk_flags,
              decision_id := did, timestamp := ts }

/-- The `log` command of `cli.py` on an already-JSON-decoded input mapping:
check that every required field is present (else `click.BadParameter`
naming the missing ones, before anything is constructed or written), then
run `logger.log_decision`; any exception it raises is caught and turned
into `click.Abort`.  The returned `LogFile` is the store after the call. -/
def cli_log (data : List (String × Json)) (f : LogFile) (did ts : String) :
    Except CliError DecisionRecord × LogFile :=
  let missing := required_fields.filter (fun k => jlookup k data = none)
  if missing.isEmpty then
    match candidateOfData data did ts with
    | .error e => (.error (.aborted e), f)
    | .ok c =>
      match log_decision f c with
      | .error e => (.error (.aborted e), f)
      | .ok (r, f') => (.ok r, f')
  else (.error (.badParameter missing), f)

/-! ## Lemmas about the verifier -/

theorem verify_chain_eq_loop (f : LogFile) :
    verify_chain f = verifyLoop genesis_hash true [] 1 (logLines f) := by
  rw [verify_chain]
  cases h : logLines f <;> simp [h, verifyLoop]

/-- Once `is_valid` is `False` it stays `False`: the loop started with
`valid = false` cannot return `True`. -/
theorem verifyLoop_false (ls : List (Option Json)) :
    ∀ prev fs n b fs', verifyLoop prev false fs n ls = .ok (b, fs') →
      b = false := by
  induction ls with
  | nil =>
    intro prev fs n b fs' h
    simp [verifyLoop] at h
    exact h.1
  | cons l rest ih =>
    intro prev fs n b fs' h
    match l with
    | none =>
      rw [verifyLoop] at h
      exact ih _ _ _ _ _ h
    | some (.null) => simp [verifyLoop] at h
    | some (.bool b') => simp [verifyLoop] at h
    | some (.num n') => simp [verifyLoop] at h
    | some (.str s) => simp [verifyLoop] at h
    | some (.arr xs) => simp [verifyLoop] at h
    | some (.obj kvs) =>
      rcases hpv : jlookup "prev_hash" kvs with _ | pv
      · simp [verifyLoop, hpv] at h
      · rcases hh : jlookup "hash" kvs with _ | hv
        · simp [verifyLoop, hpv, hh] at h
        · simp only [verifyLoop, hpv, hh, ite_self] at h
          exact ih _ _ _ _ _ h

/-- A chain segment passing all checks is scanned without adding findings or
touching `is_valid`, and leaves `previous_hash` at `chainRun`. -/
theorem verifyLoop_chainOk (ls : List (Option Json)) :
    ∀ prev valid fs n ys, chainOk prev ls = true →
      verifyLoop prev valid fs n (ls ++ ys) =
        verifyLoop (chainRun prev ls) valid fs (n + ls.length) ys := by
  induction ls with
  | nil => intro prev valid fs n ys _; simp [chainRun]
  | cons l rest ih =>
    intro prev valid fs n ys hok
    match l with
    | none => simp [chainOk] at hok
    | some (.null) => simp [chainOk] at hok
    | some (.bool b') => simp [chainOk] at hok
    | some (.num n') => simp [chainOk] at hok
    | some (.str s) => simp [chainOk] at hok
    | some (.arr xs) => simp [chainOk] at hok
    | some (.obj kvs) =>
      rw [chainOk, Bool.and_eq_true] at hok
      obtain ⟨hrec, hrest⟩ := hok
      rw [recOk, Bool.and_eq_true, decide_eq_true_eq, decide_eq_true_eq] at hrec
      obtain ⟨hpv, hh⟩ := hrec
      rw [List.cons_append]
      simp only [verifyLoop, hpv, hh, if_pos]
      rw [ih _ _ _ _ _ hrest, chainRun]
      congr 1
      simp [List.length_cons]
      omega

/-- A chain passing all checks verifies cleanly. -/
theorem verifyLoop_chainOk_ok (ls : List (Option Json)) (prev : String)
    (valid : Bool) (fs : List Finding) (n : Nat) (hok : chainOk prev ls = true) :
    verifyLoop prev valid fs n ls = .ok (valid, fs) := by
  have h := verifyLoop_chainOk ls prev valid fs n [] hok
  rw [List.append_nil] at h
  rw [h, verifyLoop]

/-- Conversely, if the loop returns `True` then it started valid, added no
findings, and every remaining line passed all checks. -/
theorem verifyLoop_ok_true (ls : List (Option Json)) :
    ∀ prev valid fs n fs', verifyLoop prev valid fs n ls = .ok (true, fs') →
      valid = true ∧ fs' = fs ∧ chainOk prev ls = true := by
  induction ls with
  | nil =>
    intro prev valid fs n fs' h
    simp [verifyLoop] at h
    exact ⟨h.1, h.2.symm, rfl⟩
  | cons l rest ih =>
    intro prev valid fs n fs' h
    match l with
    | none =>
      rw [verifyLoop] at h
      have := verifyLoop_false _ _ _ _ _ _ h
      simp at this
    | some (.null) => simp [verifyLoop] at h
    | some (.bool b') => simp [verifyLoop] at h
    | some (.num n') => simp [verifyLoop] at h
    | some (.str s) => simp [verifyLoop] at h
    | some (.arr xs) => simp [verifyLoop] at h
    | some (.obj kvs) =>
      rcases hpv : jlookup "prev_hash" kvs with _ | pv
      · simp [verifyLoop, hpv] at h
      · rcases hh : jlookup "hash" kvs with _ | hv
        · simp [verifyLoop, hpv, hh] at h
        · by_cases h1 : pv = Json.str prev
          · by_cases h2 : hv = Json.str (calculate_hash kvs)
            · simp only [verifyLoop, hpv, hh, if_pos h1, if_pos h2] at h
              obtain ⟨hv', hf', hc'⟩ := ih _ _ _ _ _ h
              refine ⟨hv', hf', ?_⟩
              rw [chainOk, recOk]
              simp [hpv, hh, h1, h2, hc']
            · simp only [verifyLoop, hpv, hh, if_pos h1, if_neg h2] at h
              have := verifyLoop_false _ _ _ _ _ _ h
              simp at this
          · simp only [verifyLoop, hpv, hh, if_neg h1, ite_self] at h
            have := verifyLoop_false _ _ _ _ _ _ h
            simp at this

/-! ## Lemmas about chains and the appender -/

theorem chainOk_append (xs : List (Option Json)) :
    ∀ prev ys, chainOk prev (xs ++ ys) =
      (chainOk prev xs && chainOk (chainRun prev xs) ys) := by
  induction xs with
  | nil => intro prev ys; simp [chainOk, chainRun]
  | cons l rest ih =>
    intro prev ys
    match l with
    | none => simp [chainOk]
    | some (.null) => simp [chainOk]
    | some (.bool b') => simp [chainOk]
    | some (.num n') => simp [chainOk]
    | some (.str s) => simp [chainOk]
    | some (.arr zs) => simp [chainOk]
    | some (.obj kvs) =>
      rw [List.cons_append, chainOk, chainOk, chainRun, ih, Bool.and_assoc]

theorem chainRun_append (xs : List (Option Json)) :
    ∀ prev ys, chainRun prev (xs ++ ys) = chainRun (chainRun prev xs) ys := by
  induction xs with
  | nil => intro prev ys; simp [chainRun]
  | cons l rest ih =>
    intro prev ys
    match l with
    | none => simp [chainRun, ih]
    | some (.null) => simp [chainRun, ih]
    | some (.bool b') => simp [chainRun, ih]
    | some (.num n') => simp [chainRun, ih]
    | some (.str s) => simp [chainRun, ih]
    | some (.arr zs) => simp [chainRun, ih]
    | some (.obj kvs) => rw [List.cons_append, chainRun, chainRun]; exact ih _ _

theorem jlookup_recordFields_prev (r : DecisionRecord) :
    jlookup "prev_hash" (recordFields r) = some (.str r.prev_hash) := rfl

theorem jlookup_recordFields_hash (r : DecisionRecord) :
    jlookup "hash" (recordFields r) = some (.str r.hash) := rfl

/-- Recomputing the canonical digest of the final record's fields (with
`hash` excluded) gives back the `hash` that `log_decision` stored: the two
hashed dicts hold the same entries and `sort_keys=True` orders them
identically. -/
theorem mkRecord_hash (c : Candidate) (ph : String) :
    calculate_hash (recordFields (mkRecord c ph)) = (mkRecord c ph).hash := rfl

/-- On a store whose lines form a valid chain, `get_last_hash` returns the
running digest: the last record's stored `hash` equals its recalculated
digest, which is what `chainRun` threads. -/
theorem get_last_hash_chainOk (ls : List (Option Json))
    (hok : chainOk genesis_hash ls = true) :
    get_last_hash (some ls) = .ok (.str (chainRun genesis_hash ls)) := by
  rcases List.eq_nil_or_concat ls with rfl | ⟨init, x, rfl⟩
  · rfl
  · rw [List.concat_eq_append] at *
    rw [chainOk_append, Bool.and_eq_true] at hok
    obtain ⟨hinit, hlast⟩ := hok
    match x with
    | none => simp [chainOk] at hlast
    | some (.null) => simp [chainOk] at hlast
    | some (.bool b') => simp [chainOk] at hlast
    | some (.num n') => simp [chainOk] at hlast
    | some (.str s) => simp [chainOk] at hlast
    | some (.arr zs) => simp [chainOk] at hlast
    | some (.obj kvs) =>
      rw [chainOk, chainOk, Bool.and_true, recOk, Bool.and_eq_true,
        decide_eq_true_eq, decide_eq_true_eq] at hlast
      obtain ⟨hpv, hh⟩ := hlast
      have hl : (logLines (some (init ++ [some (Json.obj kvs)]))).getLast? =
          some (some (Json.obj kvs)) := by simp [logLines]
      simp only [get_last_hash, hl, hh, Option.getD_some]
      rw [chainRun_append]
      simp [chainRun]

/-- `log_decision` on a store whose lines form a valid chain: it succeeds
and appends the record built on the running digest. -/
theorem log_decision_chainOk (f : LogFile) (c : Candidate)
    (hok : chainOk genesis_hash (logLines f) = true) :
    log_decision f c =
      .ok (mkRecord c (chainRun genesis_hash (logLines f)),
           some (logLines f ++
             [some (recordToJson (mkRecord c (chainRun genesis_hash (logLines f))))])) := by
  have hlast : get_last_hash f = .ok (.str (chainRun genesis_hash (logLines f))) := by
    match f with
    | none => rfl
    | some ls => exact get_last_hash_chainOk ls hok
  rw [log_decision, hlast]

/-- Appending a record whose `prev_hash` is the running digest and whose
`hash` is its own recalculated digest preserves chain validity. -/
theorem chainOk_snoc (ls : List (Option Json)) (r : DecisionRecord)
    (hok : chainOk genesis_hash ls = true)
    (hprev : r.prev_hash = chainRun genesis_hash ls)
    (hh : r.hash = calculate_hash (recordFields r)) :
    chainOk genesis_hash (ls ++ [some (recordToJson r)]) = true := by
  rw [chainOk_append, Bool.and_eq_true]
  refine ⟨hok, ?_⟩
  rw [recordToJson, chainOk, chainOk, Bool.and_true, recOk,
    jlookup_recordFields_prev, jlookup_recordFields_hash, hprev, hh]
  simp

/-- The store built by sequential appends on top of a valid chain is a valid
chain (and in particular the build never fails). -/
theorem buildStore_chainOk (cs : List Candidate) :
    ∀ f, chainOk genesis_hash (logLines f) = true →
      ∃ f', buildStore f cs = .ok f' ∧ chainOk genesis_hash (logLines f') = true := by
  induction cs with
  | nil => intro f hok; exact ⟨f, rfl, hok⟩
  | cons c cs ih =>
    intro f hok
    rw [buildStore, log_decision_chainOk f c hok]
    refine ih _ ?_
    have hnew := chainOk_snoc (logLines f)
      (mkRecord c (chainRun genesis_hash (logLines f))) hok rfl
      (mkRecord_hash _ _).symm
    simpa [logLines] using hnew

/-! ## Lemmas: verifier totality, finding accumulation, decode lines -/

/-- A line the verifier can scan without raising: undecodable (handled by the
`except` clause), or a JSON object carrying both `prev_hash` and `hash`. -/
def lineScannable : Option Json → Bool
  | none => true
  | some (.obj kvs) => (jlookup "prev_hash" kvs).isSome && (jlookup "hash" kvs).isSome
  | some _ => false

/-- The loop completes (returns instead of raising) whenever every line is
scannable. -/
theorem verifyLoop_total (ls : List (Option Json)) :
    ∀ prev valid fs n, ls.all lineScannable = true →
      ∃ b fs', verifyLoop prev valid fs n ls = .ok (b, fs') := by
  induction ls with
  | nil => intro prev valid fs n _; exact ⟨valid, fs, rfl⟩
  | cons l rest ih =>
    intro prev valid fs n hall
    rw [List.all_cons, Bool.and_eq_true] at hall
    obtain ⟨hl, hrest⟩ := hall
    match l with
    | none => rw [verifyLoop]; exact ih _ _ _ _ hrest
    | some (.null) => simp [lineScannable] at hl
    | some (.bool b') => simp [lineScannable] at hl
    | some (.num n') => simp [lineScannable] at hl
    | some (.str s) => simp [lineScannable] at hl
    | some (.arr zs) => simp [lineScannable] at hl
    | some (.obj kvs) =>
      rw [lineScannable, Bool.and_eq_true, Option.isSome_iff_exists,
        Option.isSome_iff_exists] at hl
      obtain ⟨⟨pv, hpv⟩, hv, hh⟩ := hl
      simp only [verifyLoop, hpv, hh]
      exact ih _ _ _ _ hrest

/-- The loop only ever appends findings: whatever it returns extends the
accumulator it started from. -/
theorem verifyLoop_extends (ls : List (Option Json)) :
    ∀ prev valid fs n b fs', verifyLoop prev valid fs n ls = .ok (b, fs') →
      ∃ ext, fs' = fs ++ ext := by
  induction ls with
  | nil =>
    intro prev valid fs n b fs' h
    simp [verifyLoop] at h
    exact ⟨[], by simp [h.2]⟩
  | cons l rest ih =>
    intro prev valid fs n b fs' h
    match l with
    | none =>
      rw [verifyLoop] at h
      obtain ⟨ext, hext⟩ := ih _ _ _ _ _ _ h
      exact ⟨[.decodeError n] ++ ext, by simp [hext]⟩
    | some (.null) => simp [verifyLoop] at h
    | some (.bool b') => simp [verifyLoop] at h
    | some (.num n') => simp [verifyLoop] at h
    | some (.str s) => simp [verifyLoop] at h
    | some (.arr zs) => simp [verifyLoop] at h
    | some (.obj kvs) =>
      rcases hpv : jlookup "prev_hash" kvs with _ | pv
      · simp [verifyLoop, hpv] at h
      · rcases hh : jlookup "hash" kvs with _ | hv
        · simp [verifyLoop, hpv, hh] at h
        · simp only [verifyLoop, hpv, hh] at h
          obtain ⟨ext, hext⟩ := ih _ _ _ _ _ _ h
          rw [hext]
          by_cases h1 : pv = Json.str prev <;>
            by_cases h2 : hv = Json.str (calculate_hash kvs) <;>
            simp [h1, h2]

/-- If some line of the store is undecodable, a completed verification
reports `False` and contains that line's `DecodeError` finding. -/
theorem verifyLoop_decode (ls : List (Option Json)) :
    ∀ i prev valid fs n b fs', ls[i]? = some none →
      verifyLoop prev valid fs n ls = .ok (b, fs') →
      b = false ∧ Finding.decodeError (n + i) ∈ fs' := by
  induction ls with
  | nil => intro i prev valid fs n b fs' hi; simp at hi
  | cons l rest ih =>
    intro i prev valid fs n b fs' hi h
    match i, l with
    | 0, l =>
      simp at hi
      subst hi
      rw [verifyLoop] at h
      refine ⟨verifyLoop_false _ _ _ _ _ _ h, ?_⟩
      obtain ⟨ext, hext⟩ := verifyLoop_extends _ _ _ _ _ _ _ h
      rw [hext, Nat.add_zero]
      simp
    | i + 1, none =>
      rw [verifyLoop] at h
      have hi' : rest[i]? = some none := by simpa using hi
      obtain ⟨hb, hmem⟩ := ih i _ _ _ _ _ _ hi' h
      refine ⟨hb, ?_⟩
      have : n + 1 + i = n + (i + 1) := by omega
      rwa [this] at hmem
    | i + 1, some (.null) => simp [verifyLoop] at h
    | i + 1, some (.bool b') => simp [verifyLoop] at h
    | i + 1, some (.num n') => simp [verifyLoop] at h
    | i + 1, some (.str s) => simp [verifyLoop] at h
    | i + 1, some (.arr zs) => simp [verifyLoop] at h
    | i + 1, some (.obj kvs) =>
      rcases hpv : jlookup "prev_hash" kvs with _ | pv
      · simp [verifyLoop, hpv] at h
      · rcases hh : jlookup "hash" kvs with _ | hv
        · simp [verifyLoop, hpv, hh] at h
        · simp only [verifyLoop, hpv, hh] at h
          have hi' : rest[i]? = some none := by simpa using hi
          obtain ⟨hb, hmem⟩ := ih i _ _ _ _ _ _ hi' h
          refine ⟨hb, ?_⟩
          have : n + 1 + i = n + (i + 1) := by omega
          rwa [this] at hmem

/-- Mutating one field leaves every other field's lookup unchanged. -/
theorem jlookup_setField_ne (kvs : List (String × Json)) (k k' : String)
    (v : Json) (hne : k' ≠ k) :
    jlookup k' (setField k v kvs) = jlookup k' kvs := by
  induction kvs with
  | nil => rfl
  | cons kv rest ih =>
    rw [setField, List.map_cons]
    by_cases hk : kv.1 = k
    · rw [if_pos hk, jlookup, jlookup, if_neg (by rw [hk]; exact fun h => hne h.symm),
        if_neg (by rw [hk]; exact fun h => hne h.symm)]
      exact ih
    · rw [if_neg hk, jlookup, jlookup]
      by_cases hk' : kv.1 = k'
      · rw [if_pos hk', if_pos hk']
      · rw [if_neg hk', if_neg hk']
        exact ih

/-! ## Lemmas about the locator -/

/-- Every line is either undecodable or a JSON object (the shapes the scan
loop handles without raising `AttributeError`). -/
def linesDictish (ls : List (Option Json)) : Bool :=
  ls.all (fun l =>
    match l with
    | none => true
    | some (.obj _) => true
    | some _ => false)

/-- The spec's description of the locate target: the first line that parses
to an object whose `decision_id` entry equals the query. -/
def specFirstMatch : List (Option Json) → String → Option (List (String × Json))
  | [], _ => none
  | some (.obj kvs) :: rest, did =>
    if jlookup "decision_id" kvs = some (.str did) then some kvs
    else specFirstMatch rest did
  | _ :: rest, did => specFirstMatch rest did

/-- Characterization of the scan loop on stores whose parsed lines are all
objects: no match means `notFound`; the first match is handed to
`parse_obj`, whose outcome (validated record, or uncaught `ValidationError`)
is the outcome of the scan. -/
theorem replayScan_spec (ls : List (Option Json)) :
    ∀ did, linesDictish ls = true →
      (specFirstMatch ls did = none → replayScan ls did = .ok .notFound) ∧
      (∀ kvs, specFirstMatch ls did = some kvs →
        replayScan ls did =
          (match parse_obj (.obj kvs) with
           | .ok r => .ok (.found r)
           | .error e => .error e)) := by
  induction ls with
  | nil =>
    intro did _
    exact ⟨fun _ => rfl, fun kvs hkvs => by simp [specFirstMatch] at hkvs⟩
  | cons l rest ih =>
    intro did hd
    rw [linesDictish, List.all_cons, Bool.and_eq_true] at hd
    obtain ⟨hl, hrest⟩ := hd
    have ihr := ih did hrest
    match l with
    | none =>
      rw [replayScan]
      exact ⟨fun h => ihr.1 (by simpa [specFirstMatch] using h),
             fun kvs h => ihr.2 kvs (by simpa [specFirstMatch] using h)⟩
    | some (.null) => simp at hl
    | some (.bool b') => simp at hl
    | some (.num n') => simp at hl
    | some (.str s) => simp at hl
    | some (.arr zs) => simp at hl
    | some (.obj kvs) =>
      by_cases hmatch : jlookup "decision_id" kvs = some (.str did)
      · constructor
        · intro h
          rw [specFirstMatch, if_pos hmatch] at h
          exact absurd h (by simp)
        · intro kvs' h
          rw [specFirstMatch, if_pos hmatch] at h
          injection h with h
          subst h
          rw [replayScan, if_pos hmatch]
      · rw [replayScan, if_neg hmatch]
        exact ⟨fun h => ihr.1 (by rwa [specFirstMatch, if_neg hmatch] at h),
               fun kvs' h => ihr.2 kvs' (by rwa [specFirstMatch, if_neg hmatch] at h)⟩

/-! ## Concrete fixtures (the spec §8 scenario) -/

/-- First decision of the spec §8 scenario, with fixed sample values for the
generated identity and timestamp. -/
def specCand1 : Candidate :=
  { model := "m1", config := .obj [("temp", .num 1)], prompt := "p1",
    context_sources := ["c1"], output := "o1", confidence := none,
    risk_flags := none, decision_id := "d1",
    timestamp := "2026-01-01T00:00:00+00:00" }

/-- Second decision of the spec §8 scenario. -/
def specCand2 : Candidate :=
  { model := "m2", config := .obj [("temp", .num 2)], prompt := "p2",
    context_sources := ["c2"], output := "o2", confidence := some 1,
    risk_flags := some ["low"], decision_id := "d2",
    timestamp := "2026-01-01T00:00:01+00:00" }

/-- The record the appender produces for the first decision on an empty
store. -/
def specRec1 : DecisionRecord := mkRecord specCand1 genesis_hash

/-- The record the appender produces for the second decision. -/
def specRec2 : DecisionRecord := mkRecord specCand2 specRec1.hash

/-- The two-record store of the spec §8 scenario. -/
def specStore2 : LogFile :=
  some [some (recordToJson specRec1), some (recordToJson specRec2)]

/-! ## The claims -/

/-- Claim C1: for every store built by N sequential successful append
operations starting from an empty store, running the verifier on that store
returns overall-valid. -/
theorem claim1_build_verifies (cs : List Candidate) (f' : LogFile)
    (h : buildStore (some []) cs = .ok f') :
    verify_chain f' = .ok (true, []) := by
  obtain ⟨f'', hbuild, hok⟩ := buildStore_chainOk cs (some []) rfl
  rw [h] at hbuild
  injection hbuild with hf
  subst hf
  rw [verify_chain_eq_loop]
  exact verifyLoop_chainOk_ok _ _ _ _ _ hok

/-- Witness for C1: a concrete one-append store verifies. -/
theorem claim1_build_verifies_witness :
    buildStore (some []) [specCand1] = .ok (some [some (recordToJson specRec1)]) ∧
    verify_chain (some [some (recordToJson specRec1)]) = .ok (true, []) :=
  ⟨by decide, claim1_build_verifies [specCand1] _ (by decide)⟩

/-- Claim C2: the record returned by a successful append has
`hash = digest(canonicalize(all fields except hash))`. -/
theorem claim2_append_hash (f : LogFile) (c : Candidate) (r : DecisionRecord)
    (f' : LogFile) (h : log_decision f c = .ok (r, f')) :
    r.hash = calculate_hash (recordFields r) := by
  rcases hg : get_last_hash f with e | pv
  · simp [log_decision, hg] at h
  · match pv with
    | .null => simp [log_decision, hg] at h
    | .bool b' => simp [log_decision, hg] at h
    | .num n' => simp [log_decision, hg] at h
    | .arr xs => simp [log_decision, hg] at h
    | .obj kvs => simp [log_decision, hg] at h
    | .str ph =>
      simp only [log_decision, hg] at h
      rw [Except.ok.injEq, Prod.mk.injEq] at h
      rw [← h.1]
      exact (mkRecord_hash c ph).symm

/-- Witness for C2 at a concrete append. -/
theorem claim2_append_hash_witness :
    log_decision (some []) specCand1 =
      .ok (specRec1, some [some (recordToJson specRec1)]) ∧
    specRec1.hash = calculate_hash (recordFields specRec1) :=
  ⟨by decide, claim2_append_hash (some []) specCand1 specRec1
     (some [some (recordToJson specRec1)]) (by decide)⟩

/-- Claim C3: the verifier's overall result is the conjunction of the
per-line checks — it reports overall-valid exactly when every line parses
as a record linking to the recomputed digest of its predecessor and storing
its own recomputed digest; a valid verification carries zero findings, and
an empty (or absent) store is overall-valid with zero findings. -/
theorem claim3_verify_iff (f : LogFile) :
    ((∃ fs, verify_chain f = .ok (true, fs)) ↔
      chainOk genesis_hash (logLines f) = true) ∧
    (∀ fs, verify_chain f = .ok (true, fs) → fs = []) ∧
    (logLines f = [] → verify_chain f = .ok (true, [])) := by
  refine ⟨⟨?_, ?_⟩, ?_, ?_⟩
  · rintro ⟨fs, hfs⟩
    rw [verify_chain_eq_loop] at hfs
    exact (verifyLoop_ok_true _ _ _ _ _ _ hfs).2.2
  · intro hok
    exact ⟨[], by rw [verify_chain_eq_loop];
                  exact verifyLoop_chainOk_ok _ _ _ _ _ hok⟩
  · intro fs hfs
    rw [verify_chain_eq_loop] at hfs
    exact (verifyLoop_ok_true _ _ _ _ _ _ hfs).2.1
  · intro hempty
    simp [verify_chain, hempty]

/-- Witness for C3: the two-record scenario store is chain-valid, hence the
verifier accepts it. -/
theorem claim3_verify_iff_witness :
    ∃ fs, verify_chain specStore2 = .ok (true, fs) :=
  (claim3_verify_iff specStore2).1.mpr (by decide)

/-- Counterexample to C4 as stated: in the otherwise-valid two-record
scenario store, mutating a single field of record 1 — its `hash` field —
makes the verifier report only a `TamperError` on line 1 and no
`ChainLinkError` on line 2 (the expected predecessor digest is recomputed
from content, which did not change). -/
theorem claim4_counterexample :
    chainOk genesis_hash (logLines specStore2) = true ∧
    verify_chain (some
        [some (.obj (setField "hash"
           (.str "0000000000000000000000000000000000000000000000000000000000000000")
           (recordFields specRec1))),
         some (recordToJson specRec2)]) =
      .ok (false, [Finding.tamperError 1
        (.str "0000000000000000000000000000000000000000000000000000000000000000")
        specRec1.hash]) := by decide

/-- Claim C4, amended: after each parsed line the verifier sets the expected
predecessor to the recomputed content digest; consequently, mutating a
single *content* field (any field other than `hash` and `prev_hash`) of one
stored record in an otherwise valid chain, in a way that changes the
record's recomputed digest, makes `verify` report exactly a `TamperError`
on that line plus a `ChainLinkError` on the immediately following line when
one exists, and nothing on any other line. -/
theorem claim4_amended (pre post : List (Option Json))
    (kvs : List (String × Json)) (k : String) (v : Json)
    (hchain : chainOk genesis_hash (pre ++ some (.obj kvs) :: post) = true)
    (hk1 : k ≠ "hash") (hk2 : k ≠ "prev_hash")
    (hneq : calculate_hash (setField k v kvs) ≠ calculate_hash kvs) :
    verify_chain (some (pre ++ some (.obj (setField k v kvs)) :: post)) =
      .ok (false,
        Finding.tamperError (pre.length + 1) (.str (calculate_hash kvs))
            (calculate_hash (setField k v kvs)) ::
        (if post.isEmpty then []
         else [Finding.chainLinkError (pre.length + 2)
                 (.str (calculate_hash kvs))
                 (calculate_hash (setField k v kvs))])) := by
  rw [chainOk_append, Bool.and_eq_true] at hchain
  obtain ⟨hpre, hcons⟩ := hchain
  rw [chainOk, Bool.and_eq_true] at hcons
  obtain ⟨hrec, hpost⟩ := hcons
  rw [recOk, Bool.and_eq_true, decide_eq_true_eq, decide_eq_true_eq] at hrec
  obtain ⟨hpv, hh⟩ := hrec
  have hpv' : jlookup "prev_hash" (setField k v kvs) =
      some (.str (chainRun genesis_hash pre)) := by
    rw [jlookup_setField_ne _ _ _ _ (Ne.symm hk2), hpv]
  have hh' : jlookup "hash" (setField k v kvs) =
      some (.str (calculate_hash kvs)) := by
    rw [jlookup_setField_ne _ _ _ _ (Ne.symm hk1), hh]
  have hneJ : ¬ (Json.str (calculate_hash kvs) =
      Json.str (calculate_hash (setField k v kvs))) := by
    intro hcon
    exact hneq (Json.str.inj hcon).symm
  rw [verify_chain_eq_loop]
  have hlines : logLines (some (pre ++ some (.obj (setField k v kvs)) :: post)) =
      pre ++ some (.obj (setField k v kvs)) :: post := rfl
  rw [hlines, verifyLoop_chainOk pre genesis_hash true [] 1 _ hpre]
  simp only [verifyLoop, hpv', hh', eq_self_iff_true, if_true, if_neg hneJ,
    List.nil_append]
  rcases post with _ | ⟨next, post'⟩
  · simp [verifyLoop, Nat.add_comm]
  · match next with
    | none => simp [chainOk] at hpost
    | some (.null) => simp [chainOk] at hpost
    | some (.bool b') => simp [chainOk] at hpost
    | some (.num n') => simp [chainOk] at hpost
    | some (.str s) => simp [chainOk] at hpost
    | some (.arr zs) => simp [chainOk] at hpost
    | some (.obj nkvs) =>
      rw [chainOk, Bool.and_eq_true] at hpost
      obtain ⟨hnrec, hnpost⟩ := hpost
      rw [recOk, Bool.and_eq_true, decide_eq_true_eq, decide_eq_true_eq] at hnrec
      obtain ⟨hnpv, hnh⟩ := hnrec
      simp only [verifyLoop, hnpv, hnh, if_neg hneJ, eq_self_iff_true, if_true,
        ite_self]
      rw [verifyLoop_chainOk_ok post' (calculate_hash nkvs) false _ _ hnpost]
      simp [Nat.add_comm, Nat.add_assoc, Nat.add_left_comm]

/-- Witness for the amended C4: the spec §8 tampering scenario — mutate
record 1's `output` to `TAMPERED` in the two-record store; `verify` reports
exactly `TamperError` on line 1 and `ChainLinkError` on line 2. -/
theorem claim4_amended_witness :
    calculate_hash (setField "output" (.str "TAMPERED") (recordFields specRec1)) ≠
      calculate_hash (recordFields specRec1) ∧
    verify_chain (some
        [some (.obj (setField "output" (.str "TAMPERED") (recordFields specRec1))),
         some (recordToJson specRec2)]) =
      .ok (false,
        Finding.tamperError 1 (.str (calculate_hash (recordFields specRec1)))
            (calculate_hash (setField "output" (.str "TAMPERED")
              (recordFields specRec1))) ::
        (if ([some (recordToJson specRec2)] : List (Option Json)).isEmpty then []
         else [Finding.chainLinkError 2
                 (.str (calculate_hash (recordFields specRec1)))
                 (calculate_hash (setField "output" (.str "TAMPERED")
                   (recordFields specRec1)))])) := by
  constructor
  · decide
  · have h := claim4_amended [] [some (recordToJson specRec2)]
      (recordFields specRec1) "output" (.str "TAMPERED")
      (by decide) (by decide) (by decide) (by decide)
    simpa using h

/-- The tail-hash rule the code implements, stated on the last line only:
the `hash` entry of the last line when it decodes to a JSON object carrying
a string `hash` (the genesis digest if the entry is absent), the genesis
digest when the store is empty/missing or its last line is undecodable;
`none` marks the shapes on which the appender raises instead of appending
(a non-object last line, or a non-string `hash` entry). -/
def lastLineTailHash (f : LogFile) : Option String :=
  match (logLines f).getLast? with
  | none => some genesis_hash
  | some none => some genesis_hash
  | some (some (.obj kvs)) =>
    match jlookup "hash" kvs with
    | none => some genesis_hash
    | some (.str s) => some s
    | some _ => none
  | some (some _) => none

/-- Claim C5, amended: the tail hash used as a successfully appended
record's `prev_hash` is determined by the store's last line alone — its
stored `hash` entry when the last line decodes to an object (genesis if the
entry is absent), and the genesis digest (SHA-256 of `genesis_block`, hex
lowercase) when the store is empty or its last line is undecodable.
Earlier lines are never consulted. -/
theorem claim5_amended (f : LogFile) (c : Candidate) (r : DecisionRecord)
    (f' : LogFile) (h : log_decision f c = .ok (r, f')) :
    lastLineTailHash f = some r.prev_hash ∧
    genesis_hash = sha256hex "genesis_block" ∧
    genesis_hash =
      "a1c0749b5b39ae000916b037528fe92676b68cc28ce91dc6762e50698c98214e" := by
  refine ⟨?_, rfl, by decide⟩
  rcases hl : (logLines f).getLast? with _ | ol
  · have hg : get_last_hash f = .ok (.str genesis_hash) := by
      simp [get_last_hash, hl]
    simp only [log_decision, hg] at h
    rw [Except.ok.injEq, Prod.mk.injEq] at h
    rw [← h.1]
    simp [lastLineTailHash, hl, mkRecord]
  · match ol with
    | none =>
      have hg : get_last_hash f = .ok (.str genesis_hash) := by
        simp [get_last_hash, hl]
      simp only [log_decision, hg] at h
      rw [Except.ok.injEq, Prod.mk.injEq] at h
      rw [← h.1]
      simp [lastLineTailHash, hl, mkRecord]
    | some (.null) =>
      have hg : get_last_hash f = .error "AttributeError: no attribute get" := by
        simp [get_last_hash, hl]
      simp [log_decision, hg] at h
    | some (.bool b') =>
      have hg : get_last_hash f = .error "AttributeError: no attribute get" := by
        simp [get_last_hash, hl]
      simp [log_decision, hg] at h
    | some (.num n') =>
      have hg : get_last_hash f = .error "AttributeError: no attribute get" := by
        simp [get_last_hash, hl]
      simp [log_decision, hg] at h
    | some (.str s) =>
      have hg : get_last_hash f = .error "AttributeError: no attribute get" := by
        simp [get_last_hash, hl]
      simp [log_decision, hg] at h
    | some (.arr xs) =>
      have hg : get_last_hash f = .error "AttributeError: no attribute get" := by
        simp [get_last_hash, hl]
      simp [log_decision, hg] at h
    | some (.obj kvs) =>
      rcases hk : jlookup "hash" kvs with _ | hv
      · have hg : get_last_hash f = .ok (.str genesis_hash) := by
          simp [get_last_hash, hl, hk]
        simp only [log_decision, hg] at h
        rw [Except.ok.injEq, Prod.mk.injEq] at h
        rw [← h.1]
        simp [lastLineTailHash, hl, hk, mkRecord]
      · match hv with
        | .str s =>
          have hg : get_last_hash f = .ok (.str s) := by
            simp [get_last_hash, hl, hk]
          simp only [log_decision, hg] at h
          rw [Except.ok.injEq, Prod.mk.injEq] at h
          rw [← h.1]
          simp [lastLineTailHash, hl, hk, mkRecord]
        | .null =>
          have hg : get_last_hash f = .ok .null := by
            simp [get_last_hash, hl, hk]
          simp [log_decision, hg] at h
        | .bool b' =>
          have hg : get_last_hash f = .ok (.bool b') := by
            simp [get_last_hash, hl, hk]
          simp [log_decision, hg] at h
        | .num n' =>
          have hg : get_last_hash f = .ok (.num n') := by
            simp [get_last_hash, hl, hk]
          simp [log_decision, hg] at h
        | .arr xs =>
          have hg : get_last_hash f = .ok (.arr xs) := by
            simp [get_last_hash, hl, hk]
          simp [log_decision, hg] at h
        | .obj okvs =>
          have hg : get_last_hash f = .ok (.obj okvs) := by
            simp [get_last_hash, hl, hk]
          simp [log_decision, hg] at h

/-- Counterexample to C5 as stated: on a store whose first line is a valid
record and whose last line is undecodable, the appended record's
`prev_hash` is the genesis digest — not the `hash` of the last successfully
parsed record (the first line's record). -/
theorem claim5_counterexample :
    (match log_decision (some [some (recordToJson specRec1), none]) specCand2 with
     | .ok (r, _) => some r.prev_hash
     | .error _ => none) = some genesis_hash ∧
    genesis_hash ≠ specRec1.hash := by decide

/-- Witness for the amended C5 at a concrete append on the same store. -/
theorem claim5_amended_witness :
    log_decision (some [some (recordToJson specRec1), none]) specCand2 =
      .ok (mkRecord specCand2 genesis_hash,
           some [some (recordToJson specRec1), none,
                 some (recordToJson (mkRecord specCand2 genesis_hash))]) ∧
    lastLineTailHash (some [some (recordToJson specRec1), none]) =
      some (mkRecord specCand2 genesis_hash).prev_hash :=
  ⟨by decide,
   (claim5_amended (some [some (recordToJson specRec1), none]) specCand2
      (mkRecord specCand2 genesis_hash)
      (some [some (recordToJson specRec1), none,
             some (recordToJson (mkRecord specCand2 genesis_hash))])
      (by decide)).1⟩

/-- Claim C6, amended: the verifier never aborts on undecodable lines and
completes the scan of any store whose decodable lines are all JSON objects
carrying `prev_hash` and `hash`; however (counterexample) a line that parses
as JSON without those shapes raises and aborts the scan. -/
theorem claim6_amended (ls : List (Option Json))
    (h : ls.all lineScannable = true) :
    ∃ b fs, verify_chain (some ls) = .ok (b, fs) := by
  rw [verify_chain_eq_loop]
  rcases hls : ls with _ | ⟨l, rest⟩
  · exact ⟨true, [], rfl⟩
  · rw [hls] at h
    exact verifyLoop_total _ genesis_hash true [] 1 h

/-- Counterexample to C6 as stated: a store whose single line is the JSON
object `\x7b\x7d` (no `prev_hash` entry) makes the verifier raise `KeyError`
instead of completing the scan and collecting findings. -/
theorem claim6_counterexample :
    verify_chain (some [some (.obj [])]) = .error "KeyError: prev_hash" := by
  decide

/-- Witness for the amended C6 on a store mixing an undecodable line with a
field-complete object line. -/
theorem claim6_amended_witness :
    ([none, some (.obj [("prev_hash", Json.null), ("hash", Json.null)])].all
        lineScannable = true) ∧
    ∃ b fs,
      verify_chain
        (some [none, some (.obj [("prev_hash", Json.null), ("hash", Json.null)])]) =
      .ok (b, fs) :=
  ⟨by decide, claim6_amended _ (by decide)⟩

/-- Claim C7: an undecodable line yields a `DecodeError` finding for that
line, marks the verification invalid, and the scan continues with the
expected predecessor digest unchanged (the first conjunct is the loop's
step equation on an undecodable line; the second is its consequence for any
completed verification). -/
theorem claim7_decode_line (ls : List (Option Json)) (i : Nat)
    (hi : ls[i]? = some none) :
    (∀ prev valid fs n rest,
      verifyLoop prev valid fs n (none :: rest) =
        verifyLoop prev false (fs ++ [.decodeError n]) (n + 1) rest) ∧
    (∀ b fs, verify_chain (some ls) = .ok (b, fs) →
      b = false ∧ Finding.decodeError (i + 1) ∈ fs) := by
  refine ⟨fun _ _ _ _ _ => rfl, ?_⟩
  intro b fs h
  rw [verify_chain_eq_loop] at h
  obtain ⟨hb, hmem⟩ := verifyLoop_decode ls i genesis_hash true [] 1 b fs hi h
  refine ⟨hb, ?_⟩
  have : 1 + i = i + 1 := by omega
  rwa [this] at hmem

/-- Witness for C7 on the one-line undecodable store. -/
theorem claim7_decode_line_witness :
    (([none] : List (Option Json))[0]? = some none) ∧
    verify_chain (some [none]) = .ok (false, [Finding.decodeError 1]) ∧
    (false = false ∧ Finding.decodeError 1 ∈ [Finding.decodeError 1]) :=
  ⟨by decide, by decide,
   (claim7_decode_line [none] 0 (by decide)).2 false [.decodeError 1] (by decide)⟩

/-- Claim C8: a candidate append input missing at least one required field
fails with the parameter error naming exactly the missing required fields
(`click.BadParameter`, the CLI's realization of `ValidationError`), and the
store is returned unchanged — nothing is constructed or written. -/
theorem claim8_missing_fields (data : List (String × Json)) (f : LogFile)
    (did ts : String) (h : ∃ k ∈ required_fields, jlookup k data = none) :
    cli_log data f did ts =
      (.error (.badParameter
        (required_fields.filter fun k => jlookup k data = none)), f) ∧
    ∀ k, k ∈ (required_fields.filter fun k => jlookup k data = none) ↔
      (k ∈ required_fields ∧ jlookup k data = none) := by
  constructor
  · have hne : (required_fields.filter fun k => jlookup k data = none).isEmpty
        = false := by
      obtain ⟨k, hk, hn⟩ := h
      have hmem : k ∈ required_fields.filter fun k => jlookup k data = none :=
        List.mem_filter.mpr ⟨hk, by simp [hn]⟩
      rcases hfil : required_fields.filter fun k => jlookup k data = none with
        _ | ⟨x, xs⟩
      · rw [hfil] at hmem; simp at hmem
      · simp [List.isEmpty]
    simp only [cli_log, hne, Bool.false_eq_true, if_false]
  · intro k
    rw [List.mem_filter]
    simp

/-- Witness for C8 at a concrete input supplying only `model`. -/
theorem claim8_missing_fields_witness :
    cli_log [("model", Json.str "m")] (some []) "d" "t" =
      (.error (.badParameter ["config", "prompt", "context_sources", "output"]),
       some []) := by
  have h := (claim8_missing_fields [("model", Json.str "m")] (some []) "d" "t"
    ⟨"config", by decide, by decide⟩).1
  rw [(by decide :
    (required_fields.filter
      fun k => jlookup k [("model", Json.str "m")] = none) =
    ["config", "prompt", "context_sources", "output"])] at h
  exact h

/-- Claim C9: on a store whose decodable lines are all JSON objects, the
locator scans in order, skips undecodable lines without failing, returns
the first record whose `decision_id` equals the query (when it validates),
and reports a normal not-found outcome when no line matches — an outcome
distinct from the missing-store error outcome. -/
theorem claim9_locate (ls : List (Option Json)) (did : String)
    (h : linesDictish ls = true) :
    (specFirstMatch ls did = none →
      replay_decision (some ls) did = .ok .notFound) ∧
    (∀ kvs r, specFirstMatch ls did = some kvs → parse_obj (.obj kvs) = .ok r →
      replay_decision (some ls) did = .ok (.found r)) ∧
    replay_decision none did = .ok .fileMissing ∧
    (ReplayResult.notFound ≠ ReplayResult.fileMissing) := by
  have hs := replayScan_spec ls did h
  refine ⟨fun hn => hs.1 hn, fun kvs r hm hp => ?_, rfl, by simp⟩
  exact (hs.2 kvs hm).trans (by rw [hp])

/-- Witness for C9 on the two-record scenario store. -/
theorem claim9_locate_witness :
    replay_decision specStore2 "d2" = .ok (.found specRec2) ∧
    replay_decision specStore2 "zzz" = .ok .notFound ∧
    replay_decision none "d2" = .ok .fileMissing := by
  refine ⟨?_, ?_, rfl⟩
  · exact (claim9_locate (logLines specStore2) "d2" (by decide)).2.1
      (recordFields specRec2) specRec2 (by decide) (by decide)
  · exact (claim9_locate (logLines specStore2) "zzz" (by decide)).1 (by decide)

/-- Claim C10: when the first line whose `decision_id` equals the query is
valid JSON but fails record validation, the locator raises that validation
error (it is not caught — only `JSONDecodeError` is) rather than skipping
the line or reporting not-found. -/
theorem claim10_invalid_match (ls : List (Option Json)) (did : String)
    (kvs : List (String × Json)) (e : String)
    (h1 : linesDictish ls = true) (h2 : specFirstMatch ls did = some kvs)
    (h3 : parse_obj (.obj kvs) = .error e) :
    replay_decision (some ls) did = .error e := by
  have hs := replayScan_spec ls did h1
  exact (hs.2 kvs h2).trans (by rw [h3])

/-- Witness for C10: a matching line that is a JSON object but lacks the
required record fields makes the locator raise. -/
theorem claim10_invalid_match_witness :
    parse_obj (.obj [("decision_id", Json.str "x"), ("model", Json.num 5)]) =
      .error "ValidationError: timestamp field required" ∧
    replay_decision
        (some [some (.obj [("decision_id", Json.str "x"), ("model", Json.num 5)])])
        "x" =
      .error "ValidationError: timestamp field required" :=
  ⟨by decide,
   claim10_invalid_match
     [some (.obj [("decision_id", Json.str "x"), ("model", Json.num 5)])] "x"
     [("decision_id", Json.str "x"), ("model", Json.num 5)]
     "ValidationError: timestamp field required"
     (by decide) (by decide) (by decide)⟩


end DecisionTrace
